import Mathlib

/-!
Verification of the group-decoding layer of an OpenStreetMap PBF reader
(`src/groups.rs`).  The decoders translate protobuf-level records (a
`PrimitiveBlock` holding a string table and coordinate normalization
parameters, and a `PrimitiveGroup` holding raw node/way/relation records)
into resolved domain objects.

Modelling conventions:
* Rust iterators are modelled by functions producing the full `List` of
  elements the iterator would yield.
* The only panic in the decoders is an out-of-bounds string-table index
  (`make_string`); panics are modelled as `Option.none`, propagated through
  the decoders.
* Coordinates (`f64` in the source) are modelled as exact rationals: the
  source computes `1e-9 * (offset + granularity * c)` and the claims are
  about which offset and accumulator feed that formula, not about binary
  floating-point rounding.
* Machine integers (`i64`, `i32`, `u32`) are modelled as unbounded `Int`/`Nat`;
  overflow of the delta accumulators and of `granularity * c` is explicitly
  unspecified behaviour (spec §9) and no claim mentions wrap-around.  The
  Rust cast `i32 as uint` is value-changing for negative values and is
  modelled exactly (`intAsUint`).
* `BTreeMap<String, String>` is modelled as a duplicate-free association
  list with an insert that replaces the value at an equal key.
-/

set_option autoImplicit false

namespace Osm

/-- Unicode replacement character U+FFFD, substituted for invalid UTF-8. -/
def replacementChar : Char := Char.ofNat 0xFFFD

/-- Is the byte a UTF-8 continuation byte (0x80..0xBF)? -/
def isCont (b : Nat) : Bool := 0x80 ≤ b && b ≤ 0xBF

/-- Expected length (in bytes) of the UTF-8 sequence led by byte `b`:
1 for ASCII, 2/3/4 for the valid multi-byte lead ranges, 0 for a byte that
can never lead a valid sequence (continuation bytes, 0xC0/0xC1, > 0xF4). -/
def leadLen (b : Nat) : Nat :=
  if b < 0x80 then 1
  else if 0xC2 ≤ b && b ≤ 0xDF then 2
  else if 0xE0 ≤ b && b ≤ 0xEF then 3
  else if 0xF0 ≤ b && b ≤ 0xF4 then 4
  else 0

/-- Is `c1` acceptable as the first continuation byte after lead `b`?
Encodes the restricted ranges that exclude overlong encodings, surrogates
and code points above 0x10FFFF. -/
def cont1Ok (b c1 : Nat) : Bool :=
  if b == 0xE0 then 0xA0 ≤ c1 && c1 ≤ 0xBF
  else if b == 0xED then 0x80 ≤ c1 && c1 ≤ 0x9F
  else if b == 0xF0 then 0x90 ≤ c1 && c1 ≤ 0xBF
  else if b == 0xF4 then 0x80 ≤ c1 && c1 ≤ 0x8F
  else isCont c1

/-- Code point of a valid 2-byte sequence. -/
def char2 (b c1 : Nat) : Char := Char.ofNat ((b - 0xC0) * 0x40 + (c1 - 0x80))

/-- Code point of a valid 3-byte sequence. -/
def char3 (b c1 c2 : Nat) : Char :=
  Char.ofNat ((b - 0xE0) * 0x1000 + (c1 - 0x80) * 0x40 + (c2 - 0x80))

/-- Code point of a valid 4-byte sequence. -/
def char4 (b c1 c2 c3 : Nat) : Char :=
  Char.ofNat ((b - 0xF0) * 0x40000 + (c1 - 0x80) * 0x1000
    + (c2 - 0x80) * 0x40 + (c3 - 0x80))

/-- Modelled from the spec: the lossy UTF-8 decoder used by the string
resolver.  The Rust standard-library function called at src/groups.rs:177
(`String::from_utf8_lossy`) is outside this repository; spec §4.1 requires
returning "the UTF-8 text at that position in the string table, lossily
substituting the replacement character for invalid byte sequences (never
fails with an error)".  A valid UTF-8 sequence decodes to its code point;
an invalid or truncated sequence contributes one replacement character for
its maximal valid subpart and decoding resumes at the first byte after that
subpart.  (The equations are split by how much lookahead is available so
that the recursion is structural.) -/
def utf8Lossy : List Nat → List Char
  | [] => []
  | [b] =>
    if leadLen b == 1 then [Char.ofNat b] else [replacementChar]
  | [b, c1] =>
    if leadLen b == 1 then Char.ofNat b :: utf8Lossy [c1]
    else if leadLen b == 0 then replacementChar :: utf8Lossy [c1]
    else if cont1Ok b c1 then
      if leadLen b == 2 then [char2 b c1] else [replacementChar]
    else replacementChar :: utf8Lossy [c1]
  | [b, c1, c2] =>
    if leadLen b == 1 then Char.ofNat b :: utf8Lossy [c1, c2]
    else if leadLen b == 0 then replacementChar :: utf8Lossy [c1, c2]
    else if cont1Ok b c1 then
      if leadLen b == 2 then char2 b c1 :: utf8Lossy [c2]
      else if isCont c2 then
        if leadLen b == 3 then [char3 b c1 c2] else [replacementChar]
      else replacementChar :: utf8Lossy [c2]
    else replacementChar :: utf8Lossy [c1, c2]
  | b :: c1 :: c2 :: c3 :: rest =>
    if leadLen b == 1 then Char.ofNat b :: utf8Lossy (c1 :: c2 :: c3 :: rest)
    else if leadLen b == 0 then replacementChar :: utf8Lossy (c1 :: c2 :: c3 :: rest)
    else if cont1Ok b c1 then
      if leadLen b == 2 then char2 b c1 :: utf8Lossy (c2 :: c3 :: rest)
      else if isCont c2 then
        if leadLen b == 3 then char3 b c1 c2 :: utf8Lossy (c3 :: rest)
        else if isCont c3 then char4 b c1 c2 c3 :: utf8Lossy rest
        else replacementChar :: utf8Lossy (c3 :: rest)
      else replacementChar :: utf8Lossy (c2 :: c3 :: rest)
    else replacementChar :: utf8Lossy (c1 :: c2 :: c3 :: rest)

/-- The tag map (`Tags = BTreeMap<String, String>` in objects.rs, outside
src/): modelled as a duplicate-free association list.  The source's
BTreeMap iterates keys in sorted order; the spec (§3) makes tag order
irrelevant and no claim depends on iteration order, so the model keeps
first-insertion order instead. -/
abbrev Tags := List (String × String)

/-- `BTreeMap::insert`: replace the value stored at an equal key, or
append the new pair. -/
def tagsInsert (k v : String) : Tags → Tags
  | [] => [(k, v)]
  | (k1, v1) :: rest =>
    if k = k1 then (k, v) :: rest
    else (k1, v1) :: tagsInsert k v rest

/-- The Rust cast `i as uint` (64-bit): two's-complement reinterpretation,
i.e. reduction modulo 2^64 into the unsigned range. -/
def intAsUint (i : Int) : Nat := (i % (2 ^ 64 : Int)).toNat

/-- osmformat PrimitiveBlock fields used by the decoders (spec §3/§6):
string table, granularity, and the two axis offsets. -/
structure PrimitiveBlock where
  stringtable : List (List Nat)
  granularity : Int
  lat_offset : Int
  lon_offset : Int
deriving DecidableEq

/-- osmformat simple Node record (spec §6). -/
structure RawNode where
  id : Int
  lat : Int
  lon : Int
  keys : List Nat
  vals : List Nat
deriving DecidableEq

/-- osmformat DenseNodes record: parallel delta arrays plus the flattened
key/value index stream (spec §6). -/
structure DenseNodesData where
  id : List Int
  lat : List Int
  lon : List Int
  keys_vals : List Int
deriving DecidableEq

/-- osmformat Way record (spec §6). -/
structure RawWay where
  id : Int
  refs : List Int
  keys : List Nat
  vals : List Nat
deriving DecidableEq

/-- osmformat Relation_MemberType enum. -/
inductive MemberType where
  | NODE
  | WAY
  | RELATION
deriving DecidableEq

/-- osmformat Relation record (spec §6). -/
structure RawRelation where
  id : Int
  memids : List Int
  types : List MemberType
  roles_sid : List Int
  keys : List Nat
  vals : List Nat
deriving DecidableEq

/-- osmformat PrimitiveGroup: the four record collections (spec §3). -/
structure PrimitiveGroup where
  nodes : List RawNode
  dense : DenseNodesData
  ways : List RawWay
  relations : List RawRelation
deriving DecidableEq

/-- Decoded Node (objects.rs, spec §3). -/
structure Node where
  id : Int
  lat : ℚ
  lon : ℚ
  tags : Tags
deriving DecidableEq

/-- Decoded Way (objects.rs, spec §3). -/
structure Way where
  id : Int
  nodes : List Int
  tags : Tags
deriving DecidableEq

/-- Typed foreign id of a relation member (objects.rs OsmId). -/
inductive OsmId where
  | node (id : Int)
  | way (id : Int)
  | relation (id : Int)
deriving DecidableEq

/-- Relation member (objects.rs Ref). -/
structure Ref where
  member : OsmId
  role : String
deriving DecidableEq

/-- Decoded Relation (objects.rs, spec §3). -/
structure Relation where
  id : Int
  refs : List Ref
  tags : Tags
deriving DecidableEq

/-- Tagged union over the three object kinds (objects.rs OsmObj). -/
inductive OsmObj where
  | node (n : Node)
  | way (w : Way)
  | relation (r : Relation)
deriving DecidableEq

/-- src/groups.rs:176-179 `make_string`.  Rust indexing
`block.get_stringtable().get_s()[k]` panics on an out-of-bounds index;
the panic is `none`.  In bounds, the byte string is decoded lossily. -/
def make_string (k : Nat) (block : PrimitiveBlock) : Option String :=
  (block.stringtable[k]?).map (fun s => String.mk (utf8Lossy s))

/-- src/groups.rs:180-183 `make_lat`: `1e-9 * (lat_offset + granularity * c)`. -/
def make_lat (c : Int) (b : PrimitiveBlock) : ℚ :=
  (1 / 10 ^ 9 : ℚ) * ((b.lat_offset + b.granularity * c : Int) : ℚ)

/-- src/groups.rs:184-187 `make_lon`: `1e-9 * (lon_offset + granularity * c)`. -/
def make_lon (c : Int) (b : PrimitiveBlock) : ℚ :=
  (1 / 10 ^ 9 : ℚ) * ((b.lon_offset + b.granularity * c : Int) : ℚ)

/-- The loop body of src/groups.rs:188-196 `make_tags`: fold over
`keys.iter().zip(vals.iter())`, resolving each index pair and inserting.
`zip` stops at the shorter array.  (u32 → uint is value-preserving.) -/
def make_tagsFrom (b : PrimitiveBlock) : List Nat → List Nat → Tags → Option Tags
  | k :: keys, v :: vals, tags => do
    let ks ← make_string k b
    let vs ← make_string v b
    make_tagsFrom b keys vals (tagsInsert ks vs tags)
  | _, _, tags => some tags

/-- src/groups.rs:188-196 `make_tags`. -/
def make_tags (keys vals : List Nat) (b : PrimitiveBlock) : Option Tags :=
  make_tagsFrom b keys vals []

/-- `iter.next().map(decode_one)` repeated to exhaustion: one output per
record, in input order, propagating a panic in the per-record decoder. -/
def mapDecode {α β : Type} (f : α → Option β) : List α → Option (List β)
  | [] => some []
  | x :: xs => do
    let y ← f x
    let ys ← mapDecode f xs
    some (y :: ys)

/-- One step of src/groups.rs:44-56 `SimpleNodes::next`.  Faithful to the
source: line 49 applies `make_lat` to `n.get_lon()` (not `make_lon`). -/
def decodeSimpleNode (b : PrimitiveBlock) (n : RawNode) : Option Node := do
  let tags ← make_tags n.keys n.vals b
  some { id := n.id, lat := make_lat n.lat b, lon := make_lat n.lon b, tags := tags }

/-- src/groups.rs:34-38 `simple_nodes`, iterated to exhaustion. -/
def simple_nodes (g : PrimitiveGroup) (b : PrimitiveBlock) : Option (List Node) :=
  mapDecode (decodeSimpleNode b) g.nodes

/-- The tag-reading loop of src/groups.rs:93-104 (`DenseNodes::next`).
Reads key/value index pairs from the shared stream; a key of 0 or stream
exhaustion ends this node's tags (the 0 sentinel is consumed); a dangling
key is resolved (so an out-of-bounds dangling key still panics) and then
dropped.  Returns the collected tags and the remaining stream. -/
def readDenseTags (b : PrimitiveBlock) : List Int → Tags → Option (Tags × List Int)
  | [], tags => some (tags, [])
  | k :: rest, tags =>
    if k = 0 then some (tags, rest)
    else do
      let ks ← make_string (intAsUint k) b
      match rest with
      | [] => some (tags, [])
      | v :: rest1 => do
        let vs ← make_string (intAsUint v) b
        readDenseTags b rest1 (tagsInsert ks vs tags)

/-- src/groups.rs:83-111 `DenseNodes::next`, iterated to exhaustion from
accumulators `cid, clat, clon` and key/value stream `kvs`: the three delta
iterators advance in lockstep and the iteration ends when any of them is
exhausted. -/
def denseNodesFrom (b : PrimitiveBlock) :
    List Int → List Int → List Int → List Int → Int → Int → Int → Option (List Node)
  | did :: dids, dlat :: dlats, dlon :: dlons, kvs, cid, clat, clon => do
    let r ← readDenseTags b kvs []
    let rest ← denseNodesFrom b dids dlats dlons r.2 (cid + did) (clat + dlat) (clon + dlon)
    some ({ id := cid + did,
            lat := make_lat (clat + dlat) b,
            lon := make_lon (clon + dlon) b,
            tags := r.1 } :: rest)
  | _, _, _, _, _, _, _ => some []

/-- src/groups.rs:58-72 `dense_nodes`: the three accumulators start at 0. -/
def dense_nodes (g : PrimitiveGroup) (b : PrimitiveBlock) : Option (List Node) :=
  denseNodesFrom b g.dense.id g.dense.lat g.dense.lon g.dense.keys_vals 0 0 0

/-- The ref delta chain of src/groups.rs:124-125: running sum from `n`. -/
def decodeRefs (n : Int) : List Int → List Int
  | [] => []
  | dn :: rest => (n + dn) :: decodeRefs (n + dn) rest

/-- One step of src/groups.rs:121-136 `Ways::next`: accumulator initialized
to 0 for each way. -/
def decodeWay (b : PrimitiveBlock) (w : RawWay) : Option Way := do
  let tags ← make_tags w.keys w.vals b
  some { id := w.id, nodes := decodeRefs 0 w.refs, tags := tags }

/-- src/groups.rs:114-116 `ways`, iterated to exhaustion. -/
def ways (g : PrimitiveGroup) (b : PrimitiveBlock) : Option (List Way) :=
  mapDecode (decodeWay b) g.ways

/-- The member-type match of src/groups.rs:156-160. -/
def typeToOsmId : MemberType → Int → OsmId
  | MemberType.NODE, m => OsmId.node m
  | MemberType.WAY, m => OsmId.way m
  | MemberType.RELATION, m => OsmId.relation m

/-- The member chain of src/groups.rs:149-163: fold over
`memids.zip(types).zip(roles_sid)` with the running accumulator `m`
(`m += dm` before use); the role index is an i32 cast with `as uint`. -/
def decodeMembers (b : PrimitiveBlock) (m : Int) :
    List ((Int × MemberType) × Int) → Option (List Ref)
  | [] => some []
  | ((dm, t), role) :: rest => do
    let rs ← make_string (intAsUint role) b
    let tail ← decodeMembers b (m + dm) rest
    some ({ member := typeToOsmId t (m + dm), role := rs } :: tail)

/-- One step of src/groups.rs:145-174 `Relations::next`: accumulator
initialized to 0 for each relation. -/
def decodeRelation (b : PrimitiveBlock) (rel : RawRelation) : Option Relation := do
  let refs ← decodeMembers b 0 ((rel.memids.zip rel.types).zip rel.roles_sid)
  let tags ← make_tags rel.keys rel.vals b
  some { id := rel.id, refs := refs, tags := tags }

/-- src/groups.rs:138-140 `relations`, iterated to exhaustion. -/
def relations (g : PrimitiveGroup) (b : PrimitiveBlock) : Option (List Relation) :=
  mapDecode (decodeRelation b) g.relations

/-- src/groups.rs:30-32 `nodes`: simple nodes chained with dense nodes. -/
def nodes (g : PrimitiveGroup) (b : PrimitiveBlock) : Option (List Node) := do
  let sns ← simple_nodes g b
  let dns ← dense_nodes g b
  some (sns ++ dns)

/-- src/groups.rs:19-23 `iter`: nodes, then ways, then relations, each
wrapped in the corresponding OsmObj variant. -/
def iter (g : PrimitiveGroup) (b : PrimitiveBlock) : Option (List OsmObj) := do
  let ns ← nodes g b
  let ws ← ways g b
  let rs ← relations g b
  some (ns.map OsmObj.node ++ ws.map OsmObj.way ++ rs.map OsmObj.relation)

/-! ### Concrete fixtures used by witnesses and counterexamples -/

/-- A block whose string table has eight ASCII entries (index 0 empty,
index i holds the single letter at position i of "abcdefg"), granularity 2,
latitude offset 5, longitude offset 7. -/
def exBlock : PrimitiveBlock :=
  { stringtable := [[], [97], [98], [99], [100], [101], [102], [103]],
    granularity := 2, lat_offset := 5, lon_offset := 7 }

/-- A block with one string-table entry holding an invalid UTF-8 byte. -/
def badByteBlock : PrimitiveBlock :=
  { stringtable := [[0xFF]], granularity := 1, lat_offset := 0, lon_offset := 0 }

/-- A block whose two axis offsets differ: latitude offset 0, longitude
offset 10^9 (one degree), granularity 1. -/
def blockC1 : PrimitiveBlock :=
  { stringtable := [[]], granularity := 1, lat_offset := 0, lon_offset := 1000000000 }

/-- A group holding exactly one simple node with stored coordinates (0, 0). -/
def groupC1 : PrimitiveGroup :=
  { nodes := [{ id := 1, lat := 0, lon := 0, keys := [], vals := [] }],
    dense := { id := [], lat := [], lon := [], keys_vals := [] },
    ways := [], relations := [] }

/-- A dense group of two nodes with an empty key/value stream. -/
def groupC2 : PrimitiveGroup :=
  { nodes := [],
    dense := { id := [1, 2], lat := [10, 20], lon := [100, 200], keys_vals := [] },
    ways := [], relations := [] }

/-- The decoded nodes of `groupC2` under `exBlock`. -/
def nodesC2 : List Node :=
  [{ id := 1, lat := make_lat 10 exBlock, lon := make_lon 100 exBlock, tags := [] },
   { id := 3, lat := make_lat 30 exBlock, lon := make_lon 300 exBlock, tags := [] }]

/-- A dense group whose three delta arrays have mismatched lengths 3, 1, 2. -/
def groupC3 : PrimitiveGroup :=
  { nodes := [],
    dense := { id := [1, 2, 3], lat := [10], lon := [100, 200], keys_vals := [5, 7, 0] },
    ways := [], relations := [] }

/-- A dense group of two nodes with key/value stream [5, 7, 0, 3, 4]. -/
def groupC4 : PrimitiveGroup :=
  { nodes := [],
    dense := { id := [1, 1], lat := [0, 0], lon := [0, 0], keys_vals := [5, 7, 0, 3, 4] },
    ways := [], relations := [] }

/-- Same as `groupC4` but the stream ends on the dangling key 3. -/
def groupC4d : PrimitiveGroup :=
  { nodes := [],
    dense := { id := [1, 1], lat := [0, 0], lon := [0, 0], keys_vals := [5, 7, 0, 3] },
    ways := [], relations := [] }

/-- First decoded node of `groupC4` under `exBlock`: tags {e: g}. -/
def nodeC4a : Node :=
  { id := 1, lat := make_lat 0 exBlock, lon := make_lon 0 exBlock, tags := [("e", "g")] }

/-- Second decoded node of `groupC4` under `exBlock`: tags {c: d}. -/
def nodeC4b : Node :=
  { id := 2, lat := make_lat 0 exBlock, lon := make_lon 0 exBlock, tags := [("c", "d")] }

/-- Second decoded node of `groupC4d`: the dangling key is dropped. -/
def nodeC4c : Node :=
  { id := 2, lat := make_lat 0 exBlock, lon := make_lon 0 exBlock, tags := [] }

/-- A group holding one way whose delta-coded refs are [3, -1, 2]. -/
def groupC5 : PrimitiveGroup :=
  { nodes := [], dense := { id := [], lat := [], lon := [], keys_vals := [] },
    ways := [{ id := 8, refs := [3, -1, 2], keys := [], vals := [] }],
    relations := [] }

/-- The decoded way of `groupC5`: node ids are the running sums [3, 2, 4]. -/
def wayC5 : Way := { id := 8, nodes := [3, 2, 4], tags := [] }

/-- A group holding one relation with memids [10, -4], types [NODE, WAY]. -/
def groupC6 : PrimitiveGroup :=
  { nodes := [], dense := { id := [], lat := [], lon := [], keys_vals := [] },
    ways := [],
    relations := [{ id := 9, memids := [10, -4],
                    types := [MemberType.NODE, MemberType.WAY],
                    roles_sid := [0, 0], keys := [], vals := [] }] }

/-- The decoded relation of `groupC6`: members Node(10) and Way(6). -/
def relC6 : Relation :=
  { id := 9,
    refs := [{ member := OsmId.node 10, role := "" },
             { member := OsmId.way 6, role := "" }],
    tags := [] }

/-- A group with one record of each kind. -/
def groupC7 : PrimitiveGroup :=
  { nodes := [{ id := 1, lat := 0, lon := 0, keys := [], vals := [] }],
    dense := { id := [2], lat := [0], lon := [0], keys_vals := [] },
    ways := [{ id := 3, refs := [], keys := [], vals := [] }],
    relations := [{ id := 4, memids := [], types := [], roles_sid := [],
                    keys := [], vals := [] }] }

/-- A group with no records of any kind. -/
def groupEmpty : PrimitiveGroup :=
  { nodes := [], dense := { id := [], lat := [], lon := [], keys_vals := [] },
    ways := [], relations := [] }

/-- The simple node of `groupC7` decoded under `exBlock` (note: both axes
go through make_lat, as the source does). -/
def nodeC7s : Node :=
  { id := 1, lat := make_lat 0 exBlock, lon := make_lat 0 exBlock, tags := [] }

/-- The dense node of `groupC7` decoded under `exBlock`. -/
def nodeC7d : Node :=
  { id := 2, lat := make_lat 0 exBlock, lon := make_lon 0 exBlock, tags := [] }

/-- The way of `groupC7` decoded. -/
def wayC7 : Way := { id := 3, nodes := [], tags := [] }

/-- The relation of `groupC7` decoded. -/
def relC7 : Relation := { id := 4, refs := [], tags := [] }

/-! ### Helper lemmas -/

theorem make_string_eq_some_of_lt (k : Nat) (b : PrimitiveBlock)
    (h : k < b.stringtable.length) :
    make_string k b = some (String.mk (utf8Lossy (b.stringtable.get ⟨k, h⟩))) := by
  simp [make_string, List.getElem?_eq_getElem h, List.get_eq_getElem]

theorem make_string_eq_none_of_ge (k : Nat) (b : PrimitiveBlock)
    (h : b.stringtable.length ≤ k) :
    make_string k b = none := by
  simp [make_string, List.getElem?_eq_none (by omega : b.stringtable.length ≤ k)]

theorem make_string_exists_of_lt (k : Nat) (b : PrimitiveBlock)
    (h : k < b.stringtable.length) : ∃ s, make_string k b = some s :=
  ⟨_, make_string_eq_some_of_lt k b h⟩

theorem mapDecode_eq_some {α β : Type} (f : α → Option β) :
    ∀ (xs : List α) (l : List β), mapDecode f xs = some l →
      l.length = xs.length ∧
      ∀ k (hk : k < l.length) (hk2 : k < xs.length),
        f (xs.get ⟨k, hk2⟩) = some (l.get ⟨k, hk⟩)
  | [], l, h => by
    simp only [mapDecode, Option.some.injEq] at h
    subst h
    exact ⟨rfl, fun k hk => absurd hk (by simp)⟩
  | x :: xs, l, h => by
    simp only [mapDecode, Option.bind_eq_bind, Option.bind_eq_some,
      Option.some.injEq] at h
    obtain ⟨y, hy, ys, hys, rfl⟩ := h
    obtain ⟨hlen, hget⟩ := mapDecode_eq_some f xs ys hys
    refine ⟨by simp [hlen], fun k hk hk2 => ?_⟩
    match k with
    | 0 => simpa using hy
    | k + 1 =>
      simpa using hget k (by simpa using hk) (by simpa using hk2)

theorem decodeRefs_length (n : Int) : ∀ ds : List Int, (decodeRefs n ds).length = ds.length
  | [] => rfl
  | d :: rest => by simp [decodeRefs, decodeRefs_length (n + d) rest]

theorem decodeRefs_get (n : Int) :
    ∀ (ds : List Int) (j : Nat) (hj : j < (decodeRefs n ds).length),
      (decodeRefs n ds).get ⟨j, hj⟩ = n + (ds.take (j + 1)).sum
  | [], j, hj => absurd hj (by simp [decodeRefs])
  | d :: rest, 0, hj => by simp [decodeRefs]
  | d :: rest, j + 1, hj => by
    have := decodeRefs_get (n + d) rest j (by simpa [decodeRefs] using hj)
    simp only [decodeRefs, List.get_cons_succ, List.take_succ_cons, List.sum_cons]
    rw [this]
    ring

theorem tagsInsert_overwrite (k v v1 : String) :
    ∀ t : Tags, tagsInsert k v1 (tagsInsert k v t) = tagsInsert k v1 t
  | [] => by simp [tagsInsert]
  | (k1, w1) :: rest => by
    by_cases h2 : k = k1
    · subst h2
      simp [tagsInsert]
    · simp [tagsInsert, h2, tagsInsert_overwrite k v v1 rest]

theorem readDenseTags_total_aux (b : PrimitiveBlock) :
    ∀ (n : Nat) (kvs : List Int), kvs.length ≤ n → ∀ t : Tags,
      (∀ x ∈ kvs, intAsUint x < b.stringtable.length) →
      ∃ t2 rest2, readDenseTags b kvs t = some (t2, rest2) ∧ ∀ x ∈ rest2, x ∈ kvs
  | _, [], _, t, _ => ⟨t, [], rfl, by simp⟩
  | 0, k :: rest, hn, _, _ => absurd hn (by simp)
  | n + 1, k :: rest, hn, t, hb => by
    by_cases hk : k = 0
    · exact ⟨t, rest, by simp [readDenseTags, hk],
        fun x hx => List.mem_cons_of_mem _ hx⟩
    · obtain ⟨ks, hks⟩ := make_string_exists_of_lt _ b (hb k (by simp))
      match rest with
      | [] => exact ⟨t, [], by simp [readDenseTags, hk, hks], by simp⟩
      | v :: rest1 =>
        obtain ⟨vs, hvs⟩ := make_string_exists_of_lt _ b (hb v (by simp))
        obtain ⟨t2, rest2, hrec, hmem⟩ := readDenseTags_total_aux b n rest1
          (by simp at hn ⊢; omega) (tagsInsert ks vs t)
          (fun x hx => hb x (by simp [hx]))
        exact ⟨t2, rest2, by simp [readDenseTags, hk, hks, hvs, hrec],
          fun x hx => by simp [hmem x hx]⟩

theorem readDenseTags_total (b : PrimitiveBlock) (kvs : List Int) (t : Tags)
    (hb : ∀ x ∈ kvs, intAsUint x < b.stringtable.length) :
    ∃ t2 rest2, readDenseTags b kvs t = some (t2, rest2) ∧ ∀ x ∈ rest2, x ∈ kvs :=
  readDenseTags_total_aux b kvs.length kvs le_rfl t hb

theorem denseNodesFrom_total (b : PrimitiveBlock) :
    ∀ (dids dlats dlons kvs : List Int) (cid clat clon : Int),
      (∀ x ∈ kvs, intAsUint x < b.stringtable.length) →
      ∃ l, denseNodesFrom b dids dlats dlons kvs cid clat clon = some l ∧
        l.length = min (min dids.length dlats.length) dlons.length
  | [], _, _, _, _, _, _, _ => ⟨[], by simp [denseNodesFrom], by simp⟩
  | _ :: _, [], _, _, _, _, _, _ => ⟨[], by simp [denseNodesFrom], by simp⟩
  | _ :: _, _ :: _, [], _, _, _, _, _ => ⟨[], by simp [denseNodesFrom], by simp⟩
  | d :: dids, a :: dlats, o :: dlons, kvs, cid, clat, clon, hb => by
    obtain ⟨t2, rest2, hrd, hmem⟩ := readDenseTags_total b kvs [] hb
    obtain ⟨l, hl, hlen⟩ := denseNodesFrom_total b dids dlats dlons rest2
      (cid + d) (clat + a) (clon + o) (fun x hx => hb x (hmem x hx))
    exact ⟨{ id := cid + d, lat := make_lat (clat + a) b,
             lon := make_lon (clon + o) b, tags := t2 } :: l,
      by simp [denseNodesFrom, hrd, hl], by simp [hlen, Nat.succ_min_succ]⟩

theorem denseNodesFrom_spec (b : PrimitiveBlock) :
    ∀ (dids dlats dlons kvs : List Int) (cid clat clon : Int) (l : List Node),
      denseNodesFrom b dids dlats dlons kvs cid clat clon = some l →
      l.length = min (min dids.length dlats.length) dlons.length ∧
      ∀ k (hk : k < l.length),
        (l.get ⟨k, hk⟩).id = cid + (dids.take (k + 1)).sum ∧
        (l.get ⟨k, hk⟩).lat = make_lat (clat + (dlats.take (k + 1)).sum) b ∧
        (l.get ⟨k, hk⟩).lon = make_lon (clon + (dlons.take (k + 1)).sum) b
  | [], dlats, dlons, kvs, cid, clat, clon, l, h => by
    simp only [denseNodesFrom, Option.some.injEq] at h
    subst h
    exact ⟨by simp, fun k hk => absurd hk (by simp)⟩
  | _ :: _, [], dlons, kvs, cid, clat, clon, l, h => by
    simp only [denseNodesFrom, Option.some.injEq] at h
    subst h
    exact ⟨by simp, fun k hk => absurd hk (by simp)⟩
  | _ :: _, _ :: _, [], kvs, cid, clat, clon, l, h => by
    simp only [denseNodesFrom, Option.some.injEq] at h
    subst h
    exact ⟨by simp, fun k hk => absurd hk (by simp)⟩
  | d :: dids, a :: dlats, o :: dlons, kvs, cid, clat, clon, l, h => by
    simp only [denseNodesFrom, Option.bind_eq_bind, Option.bind_eq_some,
      Option.some.injEq] at h
    obtain ⟨r, hrd, rest, hrec, hl⟩ := h
    subst hl
    obtain ⟨hlen, hget⟩ := denseNodesFrom_spec b dids dlats dlons r.2
      (cid + d) (clat + a) (clon + o) rest hrec
    refine ⟨by simp [hlen, Nat.succ_min_succ], fun k hk => ?_⟩
    match k with
    | 0 => simp
    | k + 1 =>
      obtain ⟨h1, h2, h3⟩ := hget k (by simpa using hk)
      refine ⟨?_, ?_, ?_⟩
      · simpa [List.take_succ_cons, List.sum_cons, ← add_assoc] using h1
      · simpa [List.take_succ_cons, List.sum_cons, ← add_assoc] using h2
      · simpa [List.take_succ_cons, List.sum_cons, ← add_assoc] using h3

theorem decodeMembers_spec (b : PrimitiveBlock) :
    ∀ (A : List Int) (T : List MemberType) (R : List Int) (m : Int) (l : List Ref),
      decodeMembers b m ((A.zip T).zip R) = some l →
      l.length = min (min A.length T.length) R.length ∧
      ∀ j (hj : j < l.length) (hT : j < T.length) (hR : j < R.length),
        (l.get ⟨j, hj⟩).member
          = typeToOsmId (T.get ⟨j, hT⟩) (m + (A.take (j + 1)).sum) ∧
        make_string (intAsUint (R.get ⟨j, hR⟩)) b = some (l.get ⟨j, hj⟩).role
  | [], T, R, m, l, h => by
    simp only [List.zip_nil_left, decodeMembers, Option.some.injEq] at h
    subst h
    exact ⟨by simp, fun j hj => absurd hj (by simp)⟩
  | _ :: _, [], R, m, l, h => by
    simp only [List.zip_nil_right, List.zip_nil_left, decodeMembers,
      Option.some.injEq] at h
    subst h
    exact ⟨by simp, fun j hj => absurd hj (by simp)⟩
  | _ :: _, _ :: _, [], m, l, h => by
    simp only [List.zip_cons_cons, List.zip_nil_right, decodeMembers,
      Option.some.injEq] at h
    subst h
    exact ⟨by simp, fun j hj => absurd hj (by simp)⟩
  | a :: A, t :: T, r :: R, m, l, h => by
    simp only [List.zip_cons_cons, decodeMembers, Option.bind_eq_bind,
      Option.bind_eq_some, Option.some.injEq] at h
    obtain ⟨rs, hrs, tail, htail, hl⟩ := h
    subst hl
    obtain ⟨hlen, hget⟩ := decodeMembers_spec b A T R (m + a) tail htail
    refine ⟨by simp [hlen, Nat.succ_min_succ], fun j hj hT hR => ?_⟩
    match j with
    | 0 => exact ⟨by simp, by simpa using hrs⟩
    | j + 1 =>
      obtain ⟨h1, h2⟩ := hget j (by simpa using hj)
        (by simpa using hT) (by simpa using hR)
      refine ⟨?_, ?_⟩
      · simpa [List.take_succ_cons, List.sum_cons, ← add_assoc] using h1
      · simpa using h2

theorem make_tagsFrom_take (b : PrimitiveBlock) :
    ∀ (keys vals : List Nat) (t : Tags),
      make_tagsFrom b keys vals t
        = make_tagsFrom b (keys.take (min keys.length vals.length))
            (vals.take (min keys.length vals.length)) t
  | [], vals, t => by simp [make_tagsFrom]
  | _ :: _, [], t => by simp [make_tagsFrom]
  | k :: keys, v :: vals, t => by
    simp only [List.length_cons, Nat.succ_min_succ, List.take_succ_cons]
    simp only [make_tagsFrom]
    cases make_string k b with
    | none => rfl
    | some ks =>
      cases make_string v b with
      | none => rfl
      | some vs => exact make_tagsFrom_take b keys vals (tagsInsert ks vs t)

/-! ### Claim theorems -/

/-- Claim C1 (code bug): the claim states that a decoded simple node's
longitude equals `1e-9 * (lon_offset + granularity * stored_lon)`.  The
source (src/groups.rs:49) instead feeds the stored longitude through
`make_lat`, which uses the latitude offset.  With lat_offset 0,
lon_offset 10^9, granularity 1 and stored coordinates (0, 0), the decoded
longitude is 0 while the claimed formula gives 1; the latitude conjunct
of the claim does hold.  (`make_lon` exists in the source and is used for
dense nodes, so line 49 is a slip.) -/
theorem C1_simple_node_lon_uses_lat_offset :
    ∃ n : Node, simple_nodes groupC1 blockC1 = some [n] ∧
      n.id = 1 ∧
      n.lat = (1 / 10 ^ 9 : ℚ) * ((blockC1.lat_offset : ℚ) + (blockC1.granularity : ℚ) * 0) ∧
      n.lon = make_lat 0 blockC1 ∧
      n.lon ≠ (1 / 10 ^ 9 : ℚ) * ((blockC1.lon_offset : ℚ) + (blockC1.granularity : ℚ) * 0) := by
  refine ⟨{ id := 1, lat := make_lat 0 blockC1, lon := make_lat 0 blockC1, tags := [] },
    rfl, rfl, by norm_num [make_lat, blockC1], rfl, by norm_num [make_lat, blockC1]⟩

/-- Claim C2: for a dense group whose three delta arrays have equal length
N, a successful decode yields exactly N nodes; the k-th node's id is the
sum of the first k+1 id-deltas, and its lat/lon are the denormalizations
(granularity and the respective axis offset) of the sums of the first k+1
lat deltas and lon deltas; the accumulators start at zero. -/
theorem C2_dense_prefix_sums (g : PrimitiveGroup) (b : PrimitiveBlock) (l : List Node)
    (hlat : g.dense.lat.length = g.dense.id.length)
    (hlon : g.dense.lon.length = g.dense.id.length)
    (h : dense_nodes g b = some l) :
    l.length = g.dense.id.length ∧
    ∀ k (hk : k < l.length),
      (l.get ⟨k, hk⟩).id = (g.dense.id.take (k + 1)).sum ∧
      (l.get ⟨k, hk⟩).lat = make_lat ((g.dense.lat.take (k + 1)).sum) b ∧
      (l.get ⟨k, hk⟩).lon = make_lon ((g.dense.lon.take (k + 1)).sum) b := by
  obtain ⟨hlen, hget⟩ := denseNodesFrom_spec b _ _ _ _ 0 0 0 l h
  refine ⟨by simp [hlen, hlat, hlon], fun k hk => ?_⟩
  obtain ⟨h1, h2, h3⟩ := hget k hk
  exact ⟨by simpa using h1, by simpa using h2, by simpa using h3⟩

/-- Witness for C2 on `groupC2`/`exBlock`: ids 1, 3 and coordinates from
delta sums 10, 30 / 100, 300. -/
theorem C2_dense_prefix_sums_witness :
    dense_nodes groupC2 exBlock = some nodesC2 ∧
    nodesC2.length = groupC2.dense.id.length :=
  ⟨rfl, (C2_dense_prefix_sums groupC2 exBlock nodesC2 rfl rfl rfl).1⟩

/-- Claim C3: when the three dense delta arrays have different lengths,
decoding stops at the shortest one: provided every key/value index is in
bounds (the only panic source), the decode succeeds — no error from the
mismatch itself — and yields exactly min(len_id, len_lat, len_lon) nodes. -/
theorem C3_dense_mismatch_stops_early (g : PrimitiveGroup) (b : PrimitiveBlock)
    (hkv : ∀ x ∈ g.dense.keys_vals, intAsUint x < b.stringtable.length) :
    ∃ l, dense_nodes g b = some l ∧
      l.length = min (min g.dense.id.length g.dense.lat.length) g.dense.lon.length :=
  denseNodesFrom_total b _ _ _ _ 0 0 0 hkv

/-- Witness for C3 on `groupC3` (lengths 3, 1, 2): one node, no error. -/
theorem C3_dense_mismatch_stops_early_witness :
    ∃ l, dense_nodes groupC3 exBlock = some l ∧
      l.length = min (min groupC3.dense.id.length groupC3.dense.lat.length)
        groupC3.dense.lon.length :=
  C3_dense_mismatch_stops_early groupC3 exBlock (by decide)

/-- Claim C4: dense tag parsing of the shared stream [5, 7, 0, 3, 4] for
two nodes yields first-node tags {table[5]: table[7]} and second-node tags
{table[3]: table[4]} (the 0 sentinel is consumed); and a stream ending
right after a key (here [5, 7, 0, 3]) drops the dangling key, producing a
second node with empty tags and no error. -/
theorem C4_dense_tag_stream :
    (dense_nodes groupC4 exBlock = some [nodeC4a, nodeC4b] ∧
      (∃ k5 v7, make_string 5 exBlock = some k5 ∧ make_string 7 exBlock = some v7 ∧
        nodeC4a.tags = [(k5, v7)]) ∧
      (∃ k3 v4, make_string 3 exBlock = some k3 ∧ make_string 4 exBlock = some v4 ∧
        nodeC4b.tags = [(k3, v4)])) ∧
    (dense_nodes groupC4d exBlock = some [nodeC4a, nodeC4c] ∧ nodeC4c.tags = []) := by
  exact ⟨⟨rfl, ⟨"e", "g", rfl, rfl, rfl⟩, ⟨"c", "d", rfl, rfl, rfl⟩⟩, rfl, rfl⟩

/-- Claim C5: a successful way decode yields one way per record in input
order; each way's id is copied and its node-id sequence is the running sum
of the stored refs with the accumulator starting at zero for that way. -/
theorem C5_way_refs_running_sum (g : PrimitiveGroup) (b : PrimitiveBlock) (l : List Way)
    (h : ways g b = some l) :
    l.length = g.ways.length ∧
    ∀ k (hk : k < l.length) (hk2 : k < g.ways.length),
      (l.get ⟨k, hk⟩).id = (g.ways.get ⟨k, hk2⟩).id ∧
      (l.get ⟨k, hk⟩).nodes.length = (g.ways.get ⟨k, hk2⟩).refs.length ∧
      ∀ j (hj : j < (l.get ⟨k, hk⟩).nodes.length),
        (l.get ⟨k, hk⟩).nodes.get ⟨j, hj⟩
          = (((g.ways.get ⟨k, hk2⟩).refs).take (j + 1)).sum := by
  obtain ⟨hlen, hget⟩ := mapDecode_eq_some (decodeWay b) g.ways l h
  refine ⟨hlen, fun k hk hk2 => ?_⟩
  have hw := hget k hk hk2
  simp only [decodeWay, Option.bind_eq_bind, Option.bind_eq_some,
    Option.some.injEq] at hw
  obtain ⟨tg, htg, heq⟩ := hw
  rw [← heq]
  refine ⟨rfl, decodeRefs_length 0 _, ?_⟩
  intro j hj
  simpa using decodeRefs_get 0 _ j (by simpa using hj)

/-- Witness for C5 on `groupC5`: refs [3, -1, 2] decode to [3, 2, 4]. -/
theorem C5_way_refs_running_sum_witness :
    ways groupC5 exBlock = some [wayC5] ∧ [wayC5].length = groupC5.ways.length :=
  ⟨rfl, (C5_way_refs_running_sum groupC5 exBlock [wayC5] rfl).1⟩

/-- Claim C6: a successful relation decode yields one relation per record;
its Ref sequence covers exactly the common (shortest) prefix of the memid,
type and role arrays; the j-th member carries the matching OsmId variant
for the j-th type tag with the running memid sum (accumulator reset to 0
per relation), and the role resolves from the string table. -/
theorem C6_relation_members (g : PrimitiveGroup) (b : PrimitiveBlock) (l : List Relation)
    (h : relations g b = some l) :
    l.length = g.relations.length ∧
    ∀ k (hk : k < l.length) (hk2 : k < g.relations.length),
      (l.get ⟨k, hk⟩).id = (g.relations.get ⟨k, hk2⟩).id ∧
      (l.get ⟨k, hk⟩).refs.length
        = min (min (g.relations.get ⟨k, hk2⟩).memids.length
            (g.relations.get ⟨k, hk2⟩).types.length)
          (g.relations.get ⟨k, hk2⟩).roles_sid.length ∧
      ∀ j (hj : j < (l.get ⟨k, hk⟩).refs.length)
        (hT : j < (g.relations.get ⟨k, hk2⟩).types.length)
        (hR : j < (g.relations.get ⟨k, hk2⟩).roles_sid.length),
        ((l.get ⟨k, hk⟩).refs.get ⟨j, hj⟩).member
          = typeToOsmId ((g.relations.get ⟨k, hk2⟩).types.get ⟨j, hT⟩)
              (((g.relations.get ⟨k, hk2⟩).memids.take (j + 1)).sum) ∧
        make_string (intAsUint ((g.relations.get ⟨k, hk2⟩).roles_sid.get ⟨j, hR⟩)) b
          = some ((l.get ⟨k, hk⟩).refs.get ⟨j, hj⟩).role := by
  obtain ⟨hlen, hget⟩ := mapDecode_eq_some (decodeRelation b) g.relations l h
  refine ⟨hlen, fun k hk hk2 => ?_⟩
  have hr := hget k hk hk2
  simp only [decodeRelation, Option.bind_eq_bind, Option.bind_eq_some,
    Option.some.injEq] at hr
  obtain ⟨refs, hrefs, tg, htg, heq⟩ := hr
  obtain ⟨hrl, hrget⟩ := decodeMembers_spec b _ _ _ 0 refs hrefs
  rw [← heq]
  refine ⟨rfl, hrl, ?_⟩
  intro j hj hT hR
  have hj2 : j < refs.length := by simpa using hj
  obtain ⟨h1, h2⟩ := hrget j hj2 hT hR
  exact ⟨by simpa using h1, by simpa using h2⟩

/-- Witness for C6 on `groupC6`: memids [10, -4] with types [NODE, WAY]
decode to members Node(10) and Way(6). -/
theorem C6_relation_members_witness :
    relations groupC6 exBlock = some [relC6] ∧
    [relC6].length = groupC6.relations.length :=
  ⟨rfl, (C6_relation_members groupC6 exBlock [relC6] rfl).1⟩

/-- Claim C7: the combined stream yields every simple node, then every
dense node, then every way, then every relation, each wrapped in the
corresponding OsmObj variant, with no other interleaving; an empty group
yields an empty stream with no error. -/
theorem C7_combined_stream_order (g : PrimitiveGroup) (b : PrimitiveBlock)
    (sns dns : List Node) (ws : List Way) (rs : List Relation)
    (h1 : simple_nodes g b = some sns) (h2 : dense_nodes g b = some dns)
    (h3 : ways g b = some ws) (h4 : relations g b = some rs) :
    iter g b = some (sns.map OsmObj.node ++ dns.map OsmObj.node
      ++ ws.map OsmObj.way ++ rs.map OsmObj.relation) ∧
    (g.nodes = [] → g.dense.id = [] → g.ways = [] → g.relations = [] →
      iter g b = some []) := by
  constructor
  · simp [iter, nodes, h1, h2, h3, h4, List.map_append, List.append_assoc]
  · intro e1 e2 e3 e4
    simp [iter, nodes, simple_nodes, dense_nodes, ways, relations,
      e1, e2, e3, e4, mapDecode, denseNodesFrom]

/-- Witness for C7: a group with one record of each kind yields exactly
four objects in order node, node, way, relation; the empty group yields
the empty stream. -/
theorem C7_combined_stream_order_witness :
    iter groupC7 exBlock
      = some [OsmObj.node nodeC7s, OsmObj.node nodeC7d,
              OsmObj.way wayC7, OsmObj.relation relC7] ∧
    iter groupEmpty exBlock = some [] := by
  constructor
  · exact ((C7_combined_stream_order groupC7 exBlock [nodeC7s] [nodeC7d] [wayC7] [relC7]
      rfl rfl rfl rfl).1).trans rfl
  · exact (C7_combined_stream_order groupEmpty exBlock [] [] [] []
      rfl rfl rfl rfl).2 rfl rfl rfl rfl

/-- Claim C8: make_tags processes exactly the overlapping prefix of the
two index arrays (an exhausted side ends the fold with no error), and a
later insert at an existing key overwrites the earlier value (map
semantics); concretely, keys [1, 2, 1] with vals [3, 4, 5] produce
{a: e, b: d} under `exBlock` — the second binding of key "a" wins. -/
theorem C8_make_tags_prefix_and_overwrite (b : PrimitiveBlock) (keys vals : List Nat)
    (k v v1 : String) (t : Tags) :
    make_tags keys vals b
      = make_tags (keys.take (min keys.length vals.length))
          (vals.take (min keys.length vals.length)) b ∧
    make_tags [] vals b = some [] ∧
    make_tags keys [] b = some [] ∧
    tagsInsert k v1 (tagsInsert k v t) = tagsInsert k v1 t ∧
    make_tags [1, 2, 1] [3, 4, 5] exBlock = some [("a", "e"), ("b", "d")] := by
  refine ⟨make_tagsFrom_take b keys vals [], rfl, ?_, tagsInsert_overwrite k v v1 t, rfl⟩
  cases keys <;> rfl

/-- Claim C9: the string resolver, on an in-bounds index, returns the
lossily decoded text at that table position (total for any bytes — never
an error for malformed text); an out-of-bounds index is the only input
that aborts (modelled as none). -/
theorem C9_make_string_resolution (k : Nat) (b : PrimitiveBlock) :
    (∀ h : k < b.stringtable.length,
      make_string k b = some (String.mk (utf8Lossy (b.stringtable.get ⟨k, h⟩)))) ∧
    (b.stringtable.length ≤ k → make_string k b = none) :=
  ⟨fun h => make_string_eq_some_of_lt k b h, fun h => make_string_eq_none_of_ge k b h⟩

/-- Witness for C9: in-bounds resolution (index 1 of `exBlock` is "a"),
lossy replacement of an invalid byte, and out-of-bounds abort. -/
theorem C9_make_string_resolution_witness :
    make_string 1 exBlock = some "a" ∧
    make_string 0 badByteBlock = some (String.mk [replacementChar]) ∧
    make_string 99 exBlock = none := by
  refine ⟨?_, ?_, ?_⟩
  · exact ((C9_make_string_resolution 1 exBlock).1 (by decide)).trans rfl
  · exact ((C9_make_string_resolution 0 badByteBlock).1 (by decide)).trans rfl
  · exact (C9_make_string_resolution 99 exBlock).2 (by decide)

/-- Claim C10: in the dense tag stream, a 0 read at the value position is
not a terminator — it resolves string-table entry 0 and the pair is
inserted, parsing then continuing after it — while a 0 at the key
position is the sentinel that ends the node's tags. -/
theorem C10_value_zero_is_not_sentinel (b : PrimitiveBlock) (k : Int)
    (rest : List Int) (t : Tags) (ks vs : String) (hk : k ≠ 0)
    (h1 : make_string (intAsUint k) b = some ks)
    (h2 : make_string 0 b = some vs) :
    readDenseTags b (k :: 0 :: rest) t = readDenseTags b rest (tagsInsert ks vs t) ∧
    readDenseTags b (0 :: rest) t = some (t, rest) := by
  have h0 : intAsUint 0 = 0 := by decide
  constructor
  · simp [readDenseTags, hk, h1, h0, h2]
  · simp [readDenseTags]

/-- Witness for C10: stream [5, 0] under `exBlock` yields the tag
{e: ""} — entry 0 (the empty string) is used as a value. -/
theorem C10_value_zero_is_not_sentinel_witness :
    readDenseTags exBlock [5, 0] [] = some ([("e", "")], []) :=
  ((C10_value_zero_is_not_sentinel exBlock 5 [] [] "e" ""
    (by decide) rfl rfl).1).trans rfl

end Osm
